import Mathlib

/-!
Verification of the FAQ-matching and emotion-classification core of the
websitechatbot repository.

Strings are modelled as lists of characters (`Str`); JavaScript string
primitives (`toLowerCase`, `trim`, `split`, `includes`) are modelled as
functions on `Str`.  JavaScript numbers are modelled as exact rationals.
The source computes Levenshtein distance with the two-row dynamic-programming
method (Wagner-Fischer); it is modelled here by the standard recurrence that
the dynamic program computes, together with the source's `a === b` shortcut.
-/

/-- Strings as lists of Unicode characters. -/
abbrev Str := List Char

/-- Coerces a Lean string literal to the `Str` model. -/
def s2l (s : String) : Str := s.data

/-- Lowers an ASCII letter; other characters are unchanged.  Models
`String.prototype.toLowerCase` on one character (all data in this
repository is ASCII apart from emoji, which have no uppercase form). -/
def toLowerChar (c : Char) : Char :=
  if 'A' ≤ c ∧ c ≤ 'Z' then Char.ofNat (c.toNat + 32) else c

/-- Models `s.toLowerCase()`. -/
def toLowerCase (s : Str) : Str := s.map toLowerChar

/-- Whitespace characters removed by `String.prototype.trim`. -/
def isJsSpace (c : Char) : Bool :=
  c == ' ' || c == '\t' || c == '\n' || c == '\r' || c == '\x0b' || c == '\x0c'

/-- Models `s.trim()`: removes leading and trailing whitespace. -/
def trim (s : Str) : Str :=
  ((s.dropWhile isJsSpace).reverse.dropWhile isJsSpace).reverse

/-- Models `s.split(sep)` for a one-character separator: JavaScript `split`
keeps empty pieces, and splitting the empty string yields `[""]`. -/
def splitOnChar (sep : Char) : Str → List Str
  | [] => [[]]
  | c :: rest =>
      if c == sep then [] :: splitOnChar sep rest
      else
        match splitOnChar sep rest with
        | [] => [[c]]
        | p :: ps => (c :: p) :: ps

/-- Models `s.split(',')`, as used on the `keywords` field. -/
def splitOnComma (s : Str) : List Str := splitOnChar ',' s

/-- Models `s.includes(sub)`: `sub` occurs contiguously inside `s`. -/
def jsIncludes (s sub : Str) : Bool := decide (sub <:+: s)

/-- Word characters of the JavaScript regex class `\w` (ASCII only). -/
def isWordChar (c : Char) : Bool := c.isAlphanum || c == '_'

/-- Accumulator-based splitting of a string into maximal word-character runs. -/
def tokensAux : Str → Str → List Str
  | [], cur => if cur.isEmpty then [] else [cur.reverse]
  | c :: rest, cur =>
      if isWordChar c then tokensAux rest (c :: cur)
      else if cur.isEmpty then tokensAux rest []
      else cur.reverse :: tokensAux rest []

/-- Models `s.split(/\W+/).filter(Boolean)`: the non-empty word-character
runs of `s`. -/
def tokensOf (s : Str) : List Str := tokensAux s []

/-- Levenshtein edit distance, the recurrence computed by the source's
two-row dynamic program (`v1[j+1] = min(v1[j]+1, v0[j+1]+1, v0[j]+cost)`). -/
def lev : Str → Str → Nat
  | [], b => b.length
  | a :: as, [] => (a :: as).length
  | a :: as, b :: bs =>
      min (lev as (b :: bs) + 1)
        (min (lev (a :: as) bs + 1) (lev as bs + (if a = b then 0 else 1)))
termination_by a b => a.length + b.length
decreasing_by
  all_goals simp only [List.length_cons]
  all_goals omega

/-- Models the source's `levenshtein`, including its `a === b` early return
(the `alen === 0` / `blen === 0` early returns agree with `lev`). -/
def levDist (a b : Str) : Nat := if a = b then 0 else lev a b

/-- Models the source's `similarity`:
`1 - levenshtein(a,b) / max(a.length, b.length)`, with `0` when either
string is empty. -/
def similarity (a b : Str) : ℚ :=
  if a.length = 0 ∨ b.length = 0 then 0
  else 1 - (levDist a b : ℚ) / ((max a.length b.length : Nat) : ℚ)

/-- Models the source's `tokenOverlap`: shared-token count over the larger
token count, `0` when either side has no tokens. -/
def tokenOverlap (a b : Str) : ℚ :=
  let aTokens := tokensOf a
  let bTokens := tokensOf b
  if aTokens.length = 0 ∨ bTokens.length = 0 then 0
  else ((aTokens.filter (fun t => bTokens.contains t)).length : ℚ) /
    ((max aTokens.length bTokens.length : Nat) : ℚ)

theorem lev_nil_left (b : Str) : lev [] b = b.length := by
  rw [lev]

theorem lev_nil_right (a : Str) : lev a [] = a.length := by
  cases a <;> rw [lev]

theorem lev_cons_cons (x y : Char) (xs ys : Str) :
    lev (x :: xs) (y :: ys) =
      min (lev xs (y :: ys) + 1)
        (min (lev (x :: xs) ys + 1) (lev xs ys + (if x = y then 0 else 1))) := by
  rw [lev]

theorem lev_self (a : Str) : lev a a = 0 := by
  induction a with
  | nil => rw [lev_nil_left, List.length_nil]
  | cons x xs ih =>
      rw [lev_cons_cons, if_pos rfl, ih]
      omega

theorem lev_comm (a b : Str) : lev a b = lev b a := by
  induction a generalizing b with
  | nil => rw [lev_nil_left, lev_nil_right]
  | cons x xs ihx =>
      induction b with
      | nil => rw [lev_nil_right, lev_nil_left]
      | cons y ys ihy =>
          rw [lev_cons_cons, lev_cons_cons y x ys xs]
          have h1 : lev xs (y :: ys) = lev (y :: ys) xs := ihx (y :: ys)
          have h2 : lev (x :: xs) ys = lev ys (x :: xs) := ihy
          have h3 : lev xs ys = lev ys xs := ihx ys
          have h4 : (if x = y then 0 else 1) = (if y = x then 0 else 1) := by
            by_cases h : x = y
            · rw [if_pos h, if_pos h.symm]
            · rw [if_neg h, if_neg (Ne.symm h)]
          rw [h1, h2, h3, h4]
          omega

theorem levDist_comm (a b : Str) : levDist a b = levDist b a := by
  unfold levDist
  by_cases h : a = b
  · simp [h]
  · rw [if_neg h, if_neg (fun hba => h hba.symm), lev_comm]

theorem levDist_self (a : Str) : levDist a a = 0 := by
  simp [levDist]

theorem similarity_comm (a b : Str) : similarity a b = similarity b a := by
  unfold similarity
  by_cases h : a.length = 0 ∨ b.length = 0
  · rw [if_pos h, if_pos h.symm]
  · rw [if_neg h, if_neg (fun hc => h hc.symm), levDist_comm,
      Nat.max_comm]

theorem similarity_self (a : Str) (h : a ≠ []) : similarity a a = 1 := by
  have hl : a.length ≠ 0 := by
    simpa [List.length_eq_zero] using h
  unfold similarity
  rw [if_neg (by tauto), levDist_self]
  push_cast
  ring

theorem similarity_empty (a b : Str) (h : a = [] ∨ b = []) :
    similarity a b = 0 := by
  unfold similarity
  rw [if_pos]
  rcases h with h | h <;> simp [h]

/-- The eight emotion labels of `emotionDetection.ts`. -/
inductive Emotion where
  | happy
  | sad
  | angry
  | frustrated
  | confused
  | anxious
  | excited
  | neutral
deriving DecidableEq

/-- Result record of `detectEmotion` (`EmotionAnalysis` in the source). -/
structure EmotionAnalysis where
  emotion : Emotion
  confidence : ℚ
  keywords : List Str
deriving DecidableEq

/-- The per-emotion lexicons of `emotionPatterns`: keyword list and phrase
list.  The source object has no entry for `neutral` (the scoring loop
iterates only the seven named emotions), modelled by the empty lexicon. -/
def emotionPatterns : Emotion → List Str × List Str
  | Emotion.happy =>
      ([s2l "happy", s2l "great", s2l "awesome", s2l "excellent",
        s2l "wonderful", s2l "fantastic", s2l "love", s2l "perfect",
        s2l "amazing", s2l "thank", s2l "thanks", s2l "good", s2l "nice",
        s2l "😊", s2l "😃", s2l "😄", s2l "🎉", s2l "👍", s2l "❤️"],
       [s2l "thank you", s2l "thanks so much", s2l "appreciate it",
        s2l "love it"])
  | Emotion.sad =>
      ([s2l "sad", s2l "unhappy", s2l "disappointed", s2l "sorry",
        s2l "upset", s2l "down", s2l "depressed", s2l "miserable",
        s2l "terrible", s2l "awful", s2l "horrible", s2l "bad",
        s2l "😢", s2l "😞", s2l "😔", s2l "☹️"],
       [s2l "feel bad", s2l "not good", s2l "very disappointed",
        s2l "let down"])
  | Emotion.angry =>
      ([s2l "angry", s2l "mad", s2l "furious", s2l "outraged", s2l "livid",
        s2l "hate", s2l "disgusting", s2l "ridiculous", s2l "unacceptable",
        s2l "pathetic", s2l "stupid", s2l "worst",
        s2l "😠", s2l "😡", s2l "🤬"],
       [s2l "fed up", s2l "sick of", s2l "had enough",
        s2l "this is ridiculous"])
  | Emotion.frustrated =>
      ([s2l "frustrated", s2l "annoying", s2l "irritating",
        s2l "aggravating", s2l "troublesome", s2l "difficult",
        s2l "struggling", s2l "stuck", s2l "problem", s2l "issue",
        s2l "ugh", s2l "argh", s2l "😤", s2l "😫"],
       [s2l "not working", s2l "doesnt work", s2l "doesn\x27t work",
        s2l "cant seem", s2l "keep trying"])
  | Emotion.confused =>
      ([s2l "confused", s2l "confusing", s2l "unclear", s2l "understand",
        s2l "what", s2l "how", s2l "why", s2l "help", s2l "lost",
        s2l "unsure", s2l "uncertain", s2l "dont know",
        s2l "😕", s2l "🤔", s2l "😵"],
       [s2l "dont understand", s2l "don\x27t understand", s2l "not sure",
        s2l "how do", s2l "what is", s2l "explain"])
  | Emotion.anxious =>
      ([s2l "worried", s2l "concern", s2l "nervous", s2l "anxious",
        s2l "scared", s2l "afraid", s2l "uncertain", s2l "unsure",
        s2l "hesitant", s2l "doubt", s2l "fear",
        s2l "😰", s2l "😨", s2l "😟"],
       [s2l "worried about", s2l "concerned about", s2l "what if",
        s2l "will it"])
  | Emotion.excited =>
      ([s2l "excited", s2l "cant wait", s2l "can\x27t wait",
        s2l "looking forward", s2l "eager", s2l "pumped", s2l "thrilled",
        s2l "stoked", s2l "yay", s2l "woohoo", s2l "wow",
        s2l "🎉", s2l "🤩", s2l "😍", s2l "🥳"],
       [s2l "cant wait", s2l "can\x27t wait", s2l "so excited",
        s2l "looking forward"])
  | Emotion.neutral => ([], [])

/-- Lexicon entries of `pats` that occur inside the normalized text, in
lexicon order (the source pushes each matching entry onto the match list). -/
def matchedIn (normalized : Str) (pats : List Str) : List Str :=
  pats.filter (fun p => jsIncludes normalized (toLowerCase p))

/-- Lexicon score of one emotion: `+2` per matching keyword and `+3` per
matching phrase. -/
def lexScore (normalized : Str) (e : Emotion) : ℚ :=
  2 * ((matchedIn normalized (emotionPatterns e).1).length : ℚ) +
    3 * ((matchedIn normalized (emotionPatterns e).2).length : ℚ)

/-- Punctuation heuristics: `?` adds `1` to `confused`; `!` adds `0.5` to
`excited` and to `angry`. -/
def punctScore (normalized : Str) (e : Emotion) : ℚ :=
  (if e = Emotion.confused ∧ jsIncludes normalized (s2l "?") = true
    then 1 else 0) +
  (if (e = Emotion.excited ∨ e = Emotion.angry) ∧
      jsIncludes normalized (s2l "!") = true
    then 0.5 else 0)

/-- Total accumulated score of one emotion on the normalized text. -/
def scoreOf (normalized : Str) (e : Emotion) : ℚ :=
  lexScore normalized e + punctScore normalized e

/-- Accumulated matched-entry list of one emotion on the normalized text. -/
def matchesOf (normalized : Str) (e : Emotion) : List Str :=
  matchedIn normalized (emotionPatterns e).1 ++
    matchedIn normalized (emotionPatterns e).2

/-- One entry of the source's `scores` record. -/
structure EmotionEntry where
  emotion : Emotion
  score : ℚ
  matchList : List Str
deriving DecidableEq

/-- First entry with the strictly highest score: `Object.entries(scores)`
sorted by descending score with the stable ES2019 sort, then `sorted[0]`,
is the first-listed entry whose score no later entry strictly exceeds. -/
def firstMaxAux (best : EmotionEntry) : List EmotionEntry → EmotionEntry
  | [] => best
  | e :: es => if e.score > best.score then firstMaxAux e es
      else firstMaxAux best es

/-- The seven named emotions, in the enumeration order of the `scores`
record initializer (which `Object.entries` preserves). -/
def emotionOrder : List Emotion :=
  [Emotion.happy, Emotion.sad, Emotion.angry, Emotion.frustrated,
   Emotion.confused, Emotion.anxious, Emotion.excited]

/-- Full entry order of the `scores` record: the seven named emotions then
`neutral` (present in the record with score `0` and no matches). -/
def emotionListing : List Emotion := emotionOrder ++ [Emotion.neutral]

/-- The `scores` record as an entry list, in record order. -/
def entriesOf (normalized : Str) : List EmotionEntry :=
  emotionListing.map
    (fun e => EmotionEntry.mk e (scoreOf normalized e)
      (matchesOf normalized e))

/-- Models `detectEmotion` of `emotionDetection.ts`. -/
def detectEmotion (text : Str) : EmotionAnalysis :=
  let normalized := trim (toLowerCase text)
  let entries := entriesOf normalized
  let top := firstMaxAux (entries.headD (EmotionEntry.mk Emotion.neutral 0 []))
    entries.tail
  if top.score = 0 then EmotionAnalysis.mk Emotion.neutral 1.0 []
  else EmotionAnalysis.mk top.emotion (min (top.score / 10) 1.0) top.matchList

/-- One acknowledgment/transition pair of `empatheticPrefixes`. -/
structure EmpatheticPrefix where
  acknowledgment : Str
  transition : Str
deriving DecidableEq

/-- The per-emotion acknowledgment/transition pools of
`empatheticResponses.ts` (three alternatives per emotion). -/
def empatheticPrefixes : Emotion → List EmpatheticPrefix
  | Emotion.happy =>
      [EmpatheticPrefix.mk (s2l "I\x27m glad you\x27re feeling positive!")
        (s2l "Let me help you with that."),
       EmpatheticPrefix.mk (s2l "That\x27s wonderful to hear!")
        (s2l "Here\x27s what I can tell you:"),
       EmpatheticPrefix.mk (s2l "Great energy!")
        (s2l "I\x27d be happy to assist.")]
  | Emotion.sad =>
      [EmpatheticPrefix.mk (s2l "I understand this might be disappointing.")
        (s2l "Let me see how I can help make this better."),
       EmpatheticPrefix.mk
        (s2l "I\x27m sorry to hear you\x27re not feeling great about this.")
        (s2l "Here\x27s what I can do to assist:"),
       EmpatheticPrefix.mk (s2l "I can sense some disappointment.")
        (s2l "Let me provide you with helpful information.")]
  | Emotion.angry =>
      [EmpatheticPrefix.mk
        (s2l "I understand your frustration, and I\x27m here to help.")
        (s2l "Let me provide you with the information you need:"),
       EmpatheticPrefix.mk (s2l "I hear you, and I want to make this right.")
        (s2l "Here\x27s what you need to know:"),
       EmpatheticPrefix.mk (s2l "I can see this is frustrating for you.")
        (s2l "Let me help clarify things:")]
  | Emotion.frustrated =>
      [EmpatheticPrefix.mk
        (s2l "I can see you\x27re having some difficulty with this.")
        (s2l "Let me break this down for you:"),
       EmpatheticPrefix.mk (s2l "I understand this can be confusing.")
        (s2l "Here\x27s a clearer explanation:"),
       EmpatheticPrefix.mk
        (s2l "I\x27m here to help make this easier for you.")
        (s2l "Let me explain:")]
  | Emotion.confused =>
      [EmpatheticPrefix.mk
        (s2l "That\x27s a great question! Let me clarify.")
        (s2l "Here\x27s a simple explanation:"),
       EmpatheticPrefix.mk (s2l "I can help clear that up for you.")
        (s2l "Here\x27s what you need to know:"),
       EmpatheticPrefix.mk (s2l "No worries, I\x27m here to explain!")
        (s2l "Let me walk you through this:")]
  | Emotion.anxious =>
      [EmpatheticPrefix.mk
        (s2l "I understand your concern. Let me help put your mind at ease.")
        (s2l "Here\x27s what you should know:"),
       EmpatheticPrefix.mk
        (s2l "Don\x27t worry, I\x27m here to help you with this.")
        (s2l "Here\x27s the information you need:"),
       EmpatheticPrefix.mk (s2l "I can help address your concerns.")
        (s2l "Let me explain:")]
  | Emotion.excited =>
      [EmpatheticPrefix.mk (s2l "I love the enthusiasm!")
        (s2l "Here\x27s what you need to know:"),
       EmpatheticPrefix.mk (s2l "That\x27s exciting!")
        (s2l "Let me help you with that:"),
       EmpatheticPrefix.mk (s2l "Great to see you so interested!")
        (s2l "Here\x27s the information:")]
  | Emotion.neutral =>
      [EmpatheticPrefix.mk (s2l "Thank you for reaching out.")
        (s2l "Here\x27s what I can tell you:"),
       EmpatheticPrefix.mk (s2l "I\x27m happy to help.")
        (s2l "Here\x27s the information you need:"),
       EmpatheticPrefix.mk (s2l "Let me assist you with that.")
        (s2l "Here\x27s what you should know:")]

/-- The per-emotion supportive-closing pools of `empatheticResponses.ts`
(three alternatives per emotion). -/
def supportiveSuffixes : Emotion → List Str
  | Emotion.happy =>
      [s2l "Feel free to ask if you need anything else!",
       s2l "Is there anything else I can help you with?",
       s2l "Let me know if you have any other questions!"]
  | Emotion.sad =>
      [s2l "I hope this helps improve your experience. Please let me know if you need anything else.",
       s2l "If there\x27s anything more I can do to help, please don\x27t hesitate to ask.",
       s2l "I\x27m here if you need any additional support or information."]
  | Emotion.angry =>
      [s2l "I appreciate your patience. Is there anything else I can help clarify?",
       s2l "Thank you for giving me the opportunity to help. Let me know if you need more information.",
       s2l "I\x27m here to ensure you have the best experience possible. Feel free to ask anything else."]
  | Emotion.frustrated =>
      [s2l "I hope that makes things clearer. Don\x27t hesitate to ask if you need more help!",
       s2l "Feel free to ask follow-up questions if anything is still unclear.",
       s2l "I\x27m here to help make this as smooth as possible for you."]
  | Emotion.confused =>
      [s2l "Does that make sense? Feel free to ask for more clarification!",
       s2l "I\x27m happy to explain further if you need more details.",
       s2l "Let me know if you\x27d like me to break it down differently!"]
  | Emotion.anxious =>
      [s2l "I hope this helps ease your concerns. Please reach out if you have more questions.",
       s2l "Feel free to ask anything else that might help you feel more comfortable.",
       s2l "I\x27m here to support you through this process."]
  | Emotion.excited =>
      [s2l "Enjoy! Let me know if you have any other questions!",
       s2l "Hope you have a great experience! Feel free to reach out anytime.",
       s2l "Can\x27t wait for you to enjoy this! Ask away if you need more info!"]
  | Emotion.neutral =>
      [s2l "Let me know if you need anything else.",
       s2l "Feel free to ask if you have more questions.",
       s2l "I\x27m here if you need additional information."]

/-- Models `generateEmpatheticResponse`.  The source draws the two pool
indices with `Math.floor(Math.random() * 3)`; the draws are passed here
explicitly as `p` and `q`. -/
def generateEmpatheticResponse (baseResponse : Str) (emotion : Emotion)
    (confidence : ℚ) (p q : Fin 3) : Str :=
  if confidence < 0.3 ∨ emotion = Emotion.neutral then baseResponse
  else
    let selectedPrefix :=
      (empatheticPrefixes emotion).getD p.val (EmpatheticPrefix.mk [] [])
    let selectedSuffix := (supportiveSuffixes emotion).getD q.val []
    selectedPrefix.acknowledgment ++ s2l " " ++ selectedPrefix.transition ++
      s2l "\n\n" ++ baseResponse ++ s2l "\n\n" ++ selectedSuffix

/-- The per-emotion single intro sentences of `generateNoAnswerResponse`. -/
def empatheticIntros : Emotion → Str
  | Emotion.happy =>
      s2l "I appreciate your positive energy! While I don\x27t have a specific answer to that exact question,"
  | Emotion.sad =>
      s2l "I\x27m sorry I don\x27t have a direct answer to your question."
  | Emotion.angry =>
      s2l "I understand you need information, and I apologize that I don\x27t have a specific answer to that question."
  | Emotion.frustrated =>
      s2l "I can see you\x27re looking for specific information. While I don\x27t have that exact answer,"
  | Emotion.confused =>
      s2l "That\x27s a great question! While I don\x27t have that specific information,"
  | Emotion.anxious =>
      s2l "I understand you\x27re looking for clarity. While I don\x27t have that exact answer,"
  | Emotion.excited =>
      s2l "I love your enthusiasm! While I don\x27t have that specific information right now,"
  | Emotion.neutral =>
      s2l "I don\x27t have a specific answer to that question."

/-- The per-emotion single outro sentences of `generateNoAnswerResponse`. -/
def supportiveOutros : Emotion → Str
  | Emotion.happy =>
      s2l "I\x27m sure we can find what you\x27re looking for together!"
  | Emotion.sad =>
      s2l "I hope these topics can still be helpful to you."
  | Emotion.angry =>
      s2l "I want to ensure you get the help you need, so please try one of these topics."
  | Emotion.frustrated =>
      s2l "I hope one of these topics addresses what you\x27re looking for!"
  | Emotion.confused =>
      s2l "I hope one of these common topics can help clarify things for you!"
  | Emotion.anxious =>
      s2l "I\x27m confident one of these topics will help address your needs."
  | Emotion.excited =>
      s2l "I\x27m sure one of these topics will be just what you need!"
  | Emotion.neutral =>
      s2l "Please try asking about one of these topics."

/-- Models `generateNoAnswerResponse`:
`"<intro> <suggestedTopics>\n\n<outro>"`. -/
def generateNoAnswerResponse (emotion : Emotion) (suggestedTopics : Str) :
    Str :=
  empatheticIntros emotion ++ s2l " " ++ suggestedTopics ++ s2l "\n\n" ++
    supportiveOutros emotion

/-- FAQ record of the helper module (`LocalFAQ` in the source): every field
optional, `emotion_answers` an optional map from emotion label to an
alternate answer. -/
structure LocalFAQ where
  id : Option Str := none
  question : Option Str := none
  answer : Option Str := none
  keywords : Option Str := none
  emotion_answers : Option (List (Emotion × Str)) := none
deriving DecidableEq

/-- FAQ record of `supabase.ts` as used by the `Chatbot` component: all
fields are plain strings. -/
structure FAQ where
  id : Str
  question : Str
  answer : Str
  category : Str
  keywords : Str
  created_at : Str
deriving DecidableEq

/-- First element satisfying `p` — the shape of the source's
`for (const faq of faqs) { if (cond) return faq; }` loops. -/
def findFirst {α : Type} (p : α → Bool) : List α → Option α
  | [] => none
  | x :: rest => if p x then some x else findFirst p rest

/-- The fuzzy-phase accumulation loop: start from `{score: 0}` and replace
the tracked best whenever a strictly higher score appears. -/
def bestFold {α : Type} (score : α → ℚ) (l : List α) : Option α × ℚ :=
  l.foldl
    (fun best f => if score f > best.2 then (some f, score f) else best)
    (none, 0)

/-- Exact-phase condition of `findFaq` (helper module): some non-empty
trimmed keyword occurs in the lowercased utterance, or the FAQ's lowercased
question is non-empty (JavaScript truthiness of `questionWords`) and occurs
in the lowercased utterance. -/
def exactCondition (lowercaseQuestion : Str) (faq : LocalFAQ) : Bool :=
  let keywords := (splitOnComma (toLowerCase (faq.keywords.getD []))).map trim
  let questionWords := toLowerCase (faq.question.getD [])
  keywords.any (fun k => !k.isEmpty && jsIncludes lowercaseQuestion k) ||
    (!questionWords.isEmpty && jsIncludes lowercaseQuestion questionWords)

/-- Fuzzy-phase combined score of `findFaq`:
`max(simQ*0.6 + overlapQ*0.4, simA*0.5 + overlapA*0.5)`. -/
def fuzzyScore (lowercaseQuestion : Str) (faq : LocalFAQ) : ℚ :=
  let q := toLowerCase (faq.question.getD [])
  let a := toLowerCase (faq.answer.getD [])
  let simQ := similarity lowercaseQuestion q
  let simA := similarity lowercaseQuestion a
  let overlapQ := tokenOverlap lowercaseQuestion q
  let overlapA := tokenOverlap lowercaseQuestion a
  max (simQ * 0.6 + overlapQ * 0.4) (simA * 0.5 + overlapA * 0.5)

/-- Models `findFaq` of the helper module: greedy exact phase (first hit
returns with score `1`), then the fuzzy fold. -/
def findFaq (question : Str) (faqs : List LocalFAQ) :
    Option LocalFAQ × ℚ :=
  let lowercaseQuestion := toLowerCase question
  match findFirst (exactCondition lowercaseQuestion) faqs with
  | some faq => (some faq, 1)
  | none => bestFold (fuzzyScore lowercaseQuestion) faqs

/-- Exact-phase condition of the `Chatbot` component's `findAnswer`: same
keyword test, but the question-substring test has no emptiness guard
(`lowercaseQuestion.includes(questionWords)` holds whenever the question is
empty). -/
def exactConditionC (lowercaseQuestion : Str) (faq : FAQ) : Bool :=
  let keywords := (splitOnComma (toLowerCase faq.keywords)).map trim
  let questionWords := toLowerCase faq.question
  keywords.any (fun k => !k.isEmpty && jsIncludes lowercaseQuestion k) ||
    jsIncludes lowercaseQuestion questionWords

/-- Fuzzy-phase combined score of `findAnswer` (same formula as the helper
module's, over the component's FAQ record). -/
def fuzzyScoreC (lowercaseQuestion : Str) (faq : FAQ) : ℚ :=
  let q := toLowerCase faq.question
  let a := toLowerCase faq.answer
  let simQ := similarity lowercaseQuestion q
  let simA := similarity lowercaseQuestion a
  let overlapQ := tokenOverlap lowercaseQuestion q
  let overlapA := tokenOverlap lowercaseQuestion a
  max (simQ * 0.6 + overlapQ * 0.4) (simA * 0.5 + overlapA * 0.5)

/-- Models `findAnswer` of the `Chatbot` component: exact phase returns the
answer directly; otherwise the best fuzzy candidate's answer is returned
only when its score reaches `0.35`, else `null`. -/
def findAnswer (question : Str) (faqs : List FAQ) : Option Str :=
  let lowercaseQuestion := toLowerCase question
  match findFirst (exactConditionC lowercaseQuestion) faqs with
  | some faq => some faq.answer
  | none =>
      let best := bestFold (fuzzyScoreC lowercaseQuestion) faqs
      match best.1 with
      | some faq => if best.2 ≥ 0.35 then some faq.answer else none
      | none => none

/-- Models `faq.emotion_answers[emotion]`: value of the first binding for
the emotion, if any. -/
def lookupEA (m : List (Emotion × Str)) (e : Emotion) : Option Str :=
  (m.find? (fun kv => kv.1 == e)).map (fun kv => kv.2)

/-- JavaScript truthiness of an optional string: present and non-empty. -/
def jsTruthyStr (o : Option Str) : Bool := o.isSome && !(o.getD []).isEmpty

/-- Result record of `analyzeAndRespond` (`AnalysisResult` in the source). -/
structure AnalysisResult where
  input : Str
  emotion : Emotion
  confidence : ℚ
  keywords : List Str
  baseAnswer : Option Str
  reply : Str
deriving DecidableEq

/-- The suggested-topics block built in the no-answer branch: a header, a
blank line, then every catalog question as a `•` bullet, one per line.  A
missing `question` field renders as JavaScript's `"undefined"`. -/
def suggestedTopicsFor (sampleFaqs : List LocalFAQ) : Str :=
  let suggestions := List.intercalate (s2l "\n")
    (sampleFaqs.map (fun f =>
      s2l "• " ++
        (match f.question with
         | some q => q
         | none => s2l "undefined")))
  s2l "Here are some common topics I can help with:\n\n" ++ suggestions

/-- Models `analyzeAndRespond` of the helper module.  The module-level
`sampleFaqs` catalog is passed explicitly, and the two random pool draws of
`generateEmpatheticResponse` are passed as `p` and `q`. -/
def analyzeAndRespond (text : Str) (sampleFaqs : List LocalFAQ)
    (p q : Fin 3) : AnalysisResult :=
  let emotionAnalysis := detectEmotion text
  let m := findFaq text sampleFaqs
  match m.1 with
  | some faq =>
      if m.2 ≥ 0.35 then
        let emoOverride := faq.emotion_answers.bind
          (fun ea => lookupEA ea emotionAnalysis.emotion)
        let selectedBase : Option Str :=
          match emoOverride with
          | some s => some s
          | none => faq.answer
        let reply :=
          if jsTruthyStr emoOverride then emoOverride.getD []
          else generateEmpatheticResponse (selectedBase.getD [])
            emotionAnalysis.emotion emotionAnalysis.confidence p q
        AnalysisResult.mk text emotionAnalysis.emotion
          emotionAnalysis.confidence emotionAnalysis.keywords selectedBase
          reply
      else if m.2 = 1 then
        let emoOverride := faq.emotion_answers.bind
          (fun ea => lookupEA ea emotionAnalysis.emotion)
        let selectedBase : Option Str :=
          match emoOverride with
          | some s => some s
          | none => faq.answer
        let reply :=
          if jsTruthyStr emoOverride then emoOverride.getD []
          else generateEmpatheticResponse (selectedBase.getD [])
            emotionAnalysis.emotion emotionAnalysis.confidence p q
        AnalysisResult.mk text emotionAnalysis.emotion
          emotionAnalysis.confidence emotionAnalysis.keywords selectedBase
          reply
      else
        AnalysisResult.mk text emotionAnalysis.emotion
          emotionAnalysis.confidence emotionAnalysis.keywords none
          (generateNoAnswerResponse emotionAnalysis.emotion
            (suggestedTopicsFor sampleFaqs))
  | none =>
      AnalysisResult.mk text emotionAnalysis.emotion
        emotionAnalysis.confidence emotionAnalysis.keywords none
        (generateNoAnswerResponse emotionAnalysis.emotion
          (suggestedTopicsFor sampleFaqs))

/-- Lines of a string, split at newline characters. -/
def splitLines (s : Str) : List Str := splitOnChar '\n' s

/-- Number of lines of `s` that start with a `•` bullet. -/
def countBulletLines (s : Str) : Nat :=
  ((splitLines s).filter (fun l => l.headD ' ' == '•')).length

theorem findFirst_eq_none {α : Type} (p : α → Bool) (l : List α)
    (h : ∀ x ∈ l, p x = false) : findFirst p l = none := by
  induction l with
  | nil => rfl
  | cons x rest ih =>
      rw [findFirst, if_neg]
      · exact ih (fun y hy => h y (List.mem_cons_of_mem x hy))
      · simp [h x (List.mem_cons_self x rest)]

theorem findFirst_spec {α : Type} (p : α → Bool) (l : List α) (i : Nat)
    (hi : i < l.length) (hp : p (l.get ⟨i, hi⟩) = true) :
    ∃ j, ∃ hj : j < l.length, j ≤ i ∧
      findFirst p l = some (l.get ⟨j, hj⟩) ∧ p (l.get ⟨j, hj⟩) = true ∧
      ∀ m, ∀ hm : m < l.length, m < j → p (l.get ⟨m, hm⟩) = false := by
  induction l generalizing i with
  | nil => exact absurd hi (Nat.not_lt_zero i)
  | cons x rest ih =>
      by_cases hx : p x = true
      · refine ⟨0, Nat.succ_pos _, Nat.zero_le _, ?_, hx, ?_⟩
        · rw [findFirst, if_pos hx]
          rfl
        · intro m hm hm0
          exact absurd hm0 (Nat.not_lt_zero m)
      · cases i with
        | zero => exact absurd hp hx
        | succ i' =>
            have hi' : i' < rest.length := Nat.lt_of_succ_lt_succ hi
            have hp' : p (rest.get ⟨i', hi'⟩) = true := hp
            obtain ⟨j', hj', hji, hfind, hpj, hbefore⟩ :=
              ih i' hi' hp'
            refine ⟨j' + 1, Nat.succ_lt_succ hj',
              Nat.succ_le_succ hji, ?_, hpj, ?_⟩
            · rw [findFirst, if_neg (by simp [hx])]
              exact hfind
            · intro m hm hmj
              cases m with
              | zero => simpa using hx
              | succ m' =>
                  exact hbefore m' (Nat.lt_of_succ_lt_succ hm)
                    (Nat.lt_of_succ_lt_succ hmj)

theorem bestFold_go {α : Type} (score : α → ℚ) (l : List α)
    (init : Option α × ℚ) :
    ((init.2 ≤ (l.foldl (fun best f =>
        if score f > best.2 then (some f, score f) else best) init).2 ∧
      ∀ f ∈ l, score f ≤ (l.foldl (fun best f =>
        if score f > best.2 then (some f, score f) else best) init).2) ∧
     ((l.foldl (fun best f =>
        if score f > best.2 then (some f, score f) else best) init) = init ∨
      ∃ i, ∃ hi : i < l.length,
        (l.foldl (fun best f =>
          if score f > best.2 then (some f, score f) else best) init).1 =
            some (l.get ⟨i, hi⟩) ∧
        (l.foldl (fun best f =>
          if score f > best.2 then (some f, score f) else best) init).2 =
            score (l.get ⟨i, hi⟩) ∧
        init.2 < score (l.get ⟨i, hi⟩) ∧
        ∀ j, ∀ hj : j < l.length, j < i →
          score (l.get ⟨j, hj⟩) < score (l.get ⟨i, hi⟩))) := by
  induction l generalizing init with
  | nil =>
      refine ⟨⟨le_refl _, ?_⟩, Or.inl rfl⟩
      intro f hf
      exact absurd hf (List.not_mem_nil f)
  | cons x rest ih =>
      rw [List.foldl_cons]
      by_cases hx : score x > init.2
      · rw [if_pos hx]
        obtain ⟨⟨hinit, hall⟩, hcase⟩ := ih (some x, score x)
        refine ⟨⟨le_of_lt (lt_of_lt_of_le hx hinit), ?_⟩, ?_⟩
        · intro f hf
          rcases List.mem_cons.mp hf with hfx | hfr
          · rw [hfx]; exact hinit
          · exact hall f hfr
        · rcases hcase with heq | ⟨i', hi', h1, h2, h3, h4⟩
          · refine Or.inr ⟨0, Nat.succ_pos _, ?_, ?_, hx, ?_⟩
            · rw [heq]
              rfl
            · rw [heq]
              rfl
            · intro j hj hj0
              exact absurd hj0 (Nat.not_lt_zero j)
          · refine Or.inr ⟨i' + 1, Nat.succ_lt_succ hi', h1, h2,
              lt_trans hx h3, ?_⟩
            intro j hj hji
            cases j with
            | zero => exact h3
            | succ j' =>
                exact h4 j' (Nat.lt_of_succ_lt_succ hj)
                  (Nat.lt_of_succ_lt_succ hji)
      · rw [if_neg hx]
        obtain ⟨⟨hinit, hall⟩, hcase⟩ := ih init
        refine ⟨⟨hinit, ?_⟩, ?_⟩
        · intro f hf
          rcases List.mem_cons.mp hf with hfx | hfr
          · rw [hfx]
            exact le_trans (not_lt.mp hx) hinit
          · exact hall f hfr
        · rcases hcase with heq | ⟨i', hi', h1, h2, h3, h4⟩
          · exact Or.inl heq
          · refine Or.inr ⟨i' + 1, Nat.succ_lt_succ hi', h1, h2, h3, ?_⟩
            intro j hj hji
            cases j with
            | zero => exact lt_of_le_of_lt (not_lt.mp hx) h3
            | succ j' =>
                exact h4 j' (Nat.lt_of_succ_lt_succ hj)
                  (Nat.lt_of_succ_lt_succ hji)

theorem firstMaxAux_spec (l : List EmotionEntry) (best : EmotionEntry) :
    (best.score ≤ (firstMaxAux best l).score ∧
      ∀ e ∈ l, e.score ≤ (firstMaxAux best l).score) ∧
    (firstMaxAux best l = best ∨
      ∃ i, ∃ hi : i < l.length,
        firstMaxAux best l = l.get ⟨i, hi⟩ ∧
        best.score < (firstMaxAux best l).score ∧
        ∀ j, ∀ hj : j < l.length, j < i →
          (l.get ⟨j, hj⟩).score < (firstMaxAux best l).score) := by
  induction l generalizing best with
  | nil =>
      refine ⟨⟨le_refl _, ?_⟩, Or.inl rfl⟩
      intro e he
      exact absurd he (List.not_mem_nil e)
  | cons x rest ih =>
      rw [firstMaxAux]
      by_cases hx : x.score > best.score
      · rw [if_pos hx]
        obtain ⟨⟨hxr, hall⟩, hcase⟩ := ih x
        refine ⟨⟨le_of_lt (lt_of_lt_of_le hx hxr), ?_⟩, ?_⟩
        · intro e he
          rcases List.mem_cons.mp he with hex | her
          · rw [hex]; exact hxr
          · exact hall e her
        · rcases hcase with heq | ⟨i', hi', h1, h2, h3⟩
          · refine Or.inr ⟨0, Nat.succ_pos _, heq, ?_, ?_⟩
            · rw [heq]; exact hx
            · intro j hj hj0
              exact absurd hj0 (Nat.not_lt_zero j)
          · refine Or.inr ⟨i' + 1, Nat.succ_lt_succ hi', h1,
              lt_trans hx h2, ?_⟩
            intro j hj hji
            cases j with
            | zero => exact h2
            | succ j' =>
                exact h3 j' (Nat.lt_of_succ_lt_succ hj)
                  (Nat.lt_of_succ_lt_succ hji)
      · rw [if_neg hx]
        obtain ⟨⟨hbr, hall⟩, hcase⟩ := ih best
        refine ⟨⟨hbr, ?_⟩, ?_⟩
        · intro e he
          rcases List.mem_cons.mp he with hex | her
          · rw [hex]
            exact le_trans (not_lt.mp hx) hbr
          · exact hall e her
        · rcases hcase with heq | ⟨i', hi', h1, h2, h3⟩
          · exact Or.inl heq
          · refine Or.inr ⟨i' + 1, Nat.succ_lt_succ hi', h1, h2, ?_⟩
            intro j hj hji
            cases j with
            | zero => exact lt_of_le_of_lt (not_lt.mp hx) h2
            | succ j' =>
                exact h3 j' (Nat.lt_of_succ_lt_succ hj)
                  (Nat.lt_of_succ_lt_succ hji)

theorem firstMax_cons_spec (x : EmotionEntry) (xs : List EmotionEntry) :
    ∃ i, ∃ hi : i < (x :: xs).length,
      firstMaxAux x xs = (x :: xs).get ⟨i, hi⟩ ∧
      (∀ e ∈ x :: xs, e.score ≤ (firstMaxAux x xs).score) ∧
      ∀ j, ∀ hj : j < (x :: xs).length, j < i →
        ((x :: xs).get ⟨j, hj⟩).score < (firstMaxAux x xs).score := by
  obtain ⟨⟨hxr, hall⟩, hcase⟩ := firstMaxAux_spec xs x
  rcases hcase with heq | ⟨i', hi', h1, h2, h3⟩
  · refine ⟨0, Nat.succ_pos _, heq, ?_, ?_⟩
    · intro e he
      rcases List.mem_cons.mp he with hex | her
      · rw [hex]; exact hxr
      · exact hall e her
    · intro j hj hj0
      exact absurd hj0 (Nat.not_lt_zero j)
  · refine ⟨i' + 1, Nat.succ_lt_succ hi', h1, ?_, ?_⟩
    · intro e he
      rcases List.mem_cons.mp he with hex | her
      · rw [hex]; exact hxr
      · exact hall e her
    · intro j hj hji
      cases j with
      | zero => exact h2
      | succ j' =>
          exact h3 j' (Nat.lt_of_succ_lt_succ hj)
            (Nat.lt_of_succ_lt_succ hji)

theorem scoreOf_nonneg (n : Str) (e : Emotion) : 0 ≤ scoreOf n e := by
  unfold scoreOf lexScore punctScore
  split_ifs <;> positivity

theorem scoreOf_neutral (n : Str) : scoreOf n Emotion.neutral = 0 := by
  simp [scoreOf, lexScore, punctScore, matchedIn, emotionPatterns]


theorem detectEmotion_spec (t : Str) :
    ∃ i, ∃ hi : i < emotionListing.length,
      (∀ e ∈ emotionListing,
        scoreOf (trim (toLowerCase t)) e ≤
          scoreOf (trim (toLowerCase t)) (emotionListing.get ⟨i, hi⟩)) ∧
      (∀ j, ∀ hj : j < emotionListing.length, j < i →
        scoreOf (trim (toLowerCase t)) (emotionListing.get ⟨j, hj⟩) <
          scoreOf (trim (toLowerCase t)) (emotionListing.get ⟨i, hi⟩)) ∧
      detectEmotion t =
        (if scoreOf (trim (toLowerCase t)) (emotionListing.get ⟨i, hi⟩) = 0
         then EmotionAnalysis.mk Emotion.neutral 1.0 []
         else EmotionAnalysis.mk (emotionListing.get ⟨i, hi⟩)
           (min (scoreOf (trim (toLowerCase t))
              (emotionListing.get ⟨i, hi⟩) / 10) 1.0)
           (matchesOf (trim (toLowerCase t))
              (emotionListing.get ⟨i, hi⟩))) := by
  set n := trim (toLowerCase t) with hn
  have hlen : (entriesOf n).length = emotionListing.length := by
    simp [entriesOf]
  have hget : ∀ j, ∀ hj : j < (entriesOf n).length,
      (entriesOf n).get ⟨j, hj⟩ =
        EmotionEntry.mk (emotionListing.get ⟨j, hlen ▸ hj⟩)
          (scoreOf n (emotionListing.get ⟨j, hlen ▸ hj⟩))
          (matchesOf n (emotionListing.get ⟨j, hlen ▸ hj⟩)) := by
    intro j hj
    simp [entriesOf, List.get_eq_getElem, List.getElem_map]
  obtain ⟨i, hi, heq0, hall0, hfirst0⟩ := firstMax_cons_spec
    (EmotionEntry.mk Emotion.happy (scoreOf n Emotion.happy)
      (matchesOf n Emotion.happy))
    (emotionListing.tail.map
      (fun e => EmotionEntry.mk e (scoreOf n e) (matchesOf n e)))
  have hib : i < (entriesOf n).length := hi
  have heq : firstMaxAux
      ((entriesOf n).headD (EmotionEntry.mk Emotion.neutral 0 []))
      (entriesOf n).tail = (entriesOf n).get ⟨i, hib⟩ := heq0
  have hall : ∀ e ∈ entriesOf n,
      e.score ≤ ((entriesOf n).get ⟨i, hib⟩).score := by
    intro e he
    rw [← heq]
    exact hall0 e he
  have hfirst : ∀ j, ∀ hj : j < (entriesOf n).length, j < i →
      ((entriesOf n).get ⟨j, hj⟩).score <
        ((entriesOf n).get ⟨i, hib⟩).score := by
    intro j hj hji
    rw [← heq]
    exact hfirst0 j hj hji
  have hi' : i < emotionListing.length := hlen ▸ hib
  refine ⟨i, hi', ?_, ?_, ?_⟩
  · intro e he
    have hmem : EmotionEntry.mk e (scoreOf n e) (matchesOf n e) ∈
        entriesOf n := List.mem_map_of_mem _ he
    have hb := hall _ hmem
    rw [hget i hib] at hb
    exact hb
  · intro j hj hji
    have hj2 : j < (entriesOf n).length := hlen ▸ hj
    have hb := hfirst j hj2 hji
    rw [hget i hib, hget j hj2] at hb
    exact hb
  · have hred : detectEmotion t =
        (if ((entriesOf n).get ⟨i, hib⟩).score = 0
         then EmotionAnalysis.mk Emotion.neutral 1.0 []
         else EmotionAnalysis.mk ((entriesOf n).get ⟨i, hib⟩).emotion
           (min (((entriesOf n).get ⟨i, hib⟩).score / 10) 1.0)
           ((entriesOf n).get ⟨i, hib⟩).matchList) := by
      show (if (firstMaxAux ((entriesOf n).headD
            (EmotionEntry.mk Emotion.neutral 0 []))
            (entriesOf n).tail).score = 0
          then EmotionAnalysis.mk Emotion.neutral 1.0 []
          else EmotionAnalysis.mk (firstMaxAux ((entriesOf n).headD
              (EmotionEntry.mk Emotion.neutral 0 []))
              (entriesOf n).tail).emotion
            (min ((firstMaxAux ((entriesOf n).headD
              (EmotionEntry.mk Emotion.neutral 0 []))
              (entriesOf n).tail).score / 10) 1.0)
            (firstMaxAux ((entriesOf n).headD
              (EmotionEntry.mk Emotion.neutral 0 []))
              (entriesOf n).tail).matchList) = _
      rw [heq]
    rw [hred, hget i hib]

/-- Helper: positions below `emotionOrder.length` read the same emotion
from `emotionListing` and from `emotionOrder`. -/
theorem emotionListing_get_lt (j : Nat) (hj : j < emotionOrder.length)
    (hj2 : j < emotionListing.length) :
    emotionListing.get ⟨j, hj2⟩ = emotionOrder.get ⟨j, hj⟩ := by
  simp only [emotionListing, List.get_eq_getElem]
  exact List.getElem_append_left hj

/-- Helper: `emotionListing` has one more element than `emotionOrder`. -/
theorem emotionListing_length :
    emotionListing.length = emotionOrder.length + 1 := by
  simp [emotionListing]

/-- C6: `similarity` is symmetric, equals `1` on any nonempty string paired
with itself, and equals `0` whenever either argument is empty, where
`similarity(a,b) = 1 - levenshtein(a,b) / max(len(a), len(b))`. -/
theorem C6_similarity_algebra :
    (∀ a b : Str, similarity a b = similarity b a) ∧
    (∀ a : Str, a ≠ [] → similarity a a = 1) ∧
    (∀ a b : Str, a = [] ∨ b = [] → similarity a b = 0) ∧
    (∀ a b : Str, a ≠ [] → b ≠ [] →
      similarity a b =
        1 - (levDist a b : ℚ) / ((max a.length b.length : Nat) : ℚ)) := by
  refine ⟨similarity_comm, similarity_self, similarity_empty, ?_⟩
  intro a b ha hb
  unfold similarity
  rw [if_neg]
  simpa [List.length_eq_zero, not_or] using And.intro ha hb

/-- Witness for C6 at the one-character string `"a"`. -/
theorem C6_witness :
    s2l "a" ≠ [] ∧ similarity (s2l "a") (s2l "a") = 1 :=
  ⟨by decide, C6_similarity_algebra.2.1 (s2l "a") (by decide)⟩

/-- C4: the confidence returned by `detectEmotion` always lies in `[0,1]`,
and the neutral record `{neutral, 1.0, []}` is returned iff no lexicon
keyword, phrase, or punctuation rule contributed any score to any of the
seven named emotions. -/
theorem C4_confidence_and_neutral (t : Str) :
    0 ≤ (detectEmotion t).confidence ∧ (detectEmotion t).confidence ≤ 1 ∧
    (detectEmotion t = EmotionAnalysis.mk Emotion.neutral 1.0 [] ↔
      ∀ e ∈ emotionOrder, scoreOf (trim (toLowerCase t)) e = 0) := by
  obtain ⟨i, hi, hall, hfirst, heq⟩ := detectEmotion_spec t
  by_cases h0 : scoreOf (trim (toLowerCase t)) (emotionListing.get ⟨i, hi⟩) = 0
  · rw [heq, if_pos h0]
    refine ⟨by norm_num, by norm_num, ?_⟩
    constructor
    · intro _ e he
      have h1 := hall e (List.mem_append_left _ he)
      have h2 := scoreOf_nonneg (trim (toLowerCase t)) e
      rw [h0] at h1
      exact le_antisymm h1 h2
    · intro _
      rfl
  · rw [heq, if_neg h0]
    have hpos : 0 < scoreOf (trim (toLowerCase t)) (emotionListing.get ⟨i, hi⟩) :=
      lt_of_le_of_ne (scoreOf_nonneg _ _) (Ne.symm h0)
    refine ⟨?_, ?_, ?_⟩
    · show 0 ≤ min (scoreOf (trim (toLowerCase t))
        (emotionListing.get ⟨i, hi⟩) / 10) 1.0
      refine le_min (by positivity) (by norm_num)
    · show min (scoreOf (trim (toLowerCase t))
        (emotionListing.get ⟨i, hi⟩) / 10) 1.0 ≤ 1
      have hle := min_le_right (scoreOf (trim (toLowerCase t))
        (emotionListing.get ⟨i, hi⟩) / 10) (1.0 : ℚ)
      calc min (scoreOf (trim (toLowerCase t))
            (emotionListing.get ⟨i, hi⟩) / 10) 1.0 ≤ (1.0 : ℚ) := hle
        _ ≤ 1 := by norm_num
    · constructor
      · intro hrec
        have hem : emotionListing.get ⟨i, hi⟩ = Emotion.neutral :=
          congrArg EmotionAnalysis.emotion hrec
        rw [hem, scoreOf_neutral] at h0
        exact absurd rfl h0
      · intro hz
        exfalso
        have hmem : emotionListing.get ⟨i, hi⟩ ∈ emotionListing :=
          List.get_mem _ _ _
        rcases List.mem_append.mp hmem with ho | hne
        · exact h0 (hz _ ho)
        · have hem : emotionListing.get ⟨i, hi⟩ = Emotion.neutral := by
            simpa using hne
          rw [hem, scoreOf_neutral] at h0
          exact h0 rfl

/-- Witness for C4 at the empty utterance. -/
theorem C4_witness :
    0 ≤ (detectEmotion (s2l "")).confidence ∧
    (detectEmotion (s2l "")).confidence ≤ 1 ∧
    (detectEmotion (s2l "") = EmotionAnalysis.mk Emotion.neutral 1.0 [] ↔
      ∀ e ∈ emotionOrder, scoreOf (trim (toLowerCase (s2l ""))) e = 0) :=
  C4_confidence_and_neutral (s2l "")

/-- C5: whenever some named emotion accumulates a positive score,
`detectEmotion` returns the emotion that attains the maximal accumulated
score and, among the emotions tied at that score, comes earliest in the
fixed order happy, sad, angry, frustrated, confused, anxious, excited. -/
theorem C5_winner_tie_break (t : Str)
    (h : ∃ e ∈ emotionOrder, 0 < scoreOf (trim (toLowerCase t)) e) :
    ∃ i, ∃ hi : i < emotionOrder.length,
      (detectEmotion t).emotion = emotionOrder.get ⟨i, hi⟩ ∧
      (∀ e ∈ emotionOrder, scoreOf (trim (toLowerCase t)) e ≤
        scoreOf (trim (toLowerCase t)) (emotionOrder.get ⟨i, hi⟩)) ∧
      ∀ j, ∀ hj : j < emotionOrder.length, j < i →
        scoreOf (trim (toLowerCase t)) (emotionOrder.get ⟨j, hj⟩) <
          scoreOf (trim (toLowerCase t)) (emotionOrder.get ⟨i, hi⟩) := by
  obtain ⟨i, hi, hall, hfirst, heq⟩ := detectEmotion_spec t
  obtain ⟨e0, he0, he0pos⟩ := h
  have hwpos : 0 < scoreOf (trim (toLowerCase t))
      (emotionListing.get ⟨i, hi⟩) :=
    lt_of_lt_of_le he0pos (hall e0 (List.mem_append_left _ he0))
  have h0 : scoreOf (trim (toLowerCase t))
      (emotionListing.get ⟨i, hi⟩) ≠ 0 := ne_of_gt hwpos
  have hlt : i < emotionOrder.length := by
    by_contra hge
    push_neg at hge
    have hi8 : i < emotionOrder.length + 1 := emotionListing_length ▸ hi
    have hieq : i = emotionOrder.length :=
      le_antisymm (Nat.lt_succ_iff.mp hi8) hge
    have hne : emotionListing.get ⟨i, hi⟩ = Emotion.neutral := by
      subst hieq
      rfl
    rw [hne, scoreOf_neutral] at hwpos
    exact lt_irrefl 0 hwpos
  have hw : emotionListing.get ⟨i, hi⟩ = emotionOrder.get ⟨i, hlt⟩ :=
    emotionListing_get_lt i hlt hi
  refine ⟨i, hlt, ?_, ?_, ?_⟩
  · rw [heq, if_neg h0, ← hw]
  · intro e he
    have hb := hall e (List.mem_append_left _ he)
    rwa [hw] at hb
  · intro j hj hji
    have hj2 : j < emotionListing.length := by
      rw [emotionListing_length]
      omega
    have hb := hfirst j hj2 hji
    rwa [hw, emotionListing_get_lt j hj hj2] at hb

/-- Witness for C5 at the utterance `"happy"`. -/
theorem C5_witness :
    (∃ e ∈ emotionOrder, 0 < scoreOf (trim (toLowerCase (s2l "happy"))) e) ∧
    (∃ i, ∃ hi : i < emotionOrder.length,
      (detectEmotion (s2l "happy")).emotion = emotionOrder.get ⟨i, hi⟩ ∧
      (∀ e ∈ emotionOrder, scoreOf (trim (toLowerCase (s2l "happy"))) e ≤
        scoreOf (trim (toLowerCase (s2l "happy")))
          (emotionOrder.get ⟨i, hi⟩)) ∧
      ∀ j, ∀ hj : j < emotionOrder.length, j < i →
        scoreOf (trim (toLowerCase (s2l "happy")))
            (emotionOrder.get ⟨j, hj⟩) <
          scoreOf (trim (toLowerCase (s2l "happy")))
            (emotionOrder.get ⟨i, hi⟩)) := by
  have h : ∃ e ∈ emotionOrder,
      0 < scoreOf (trim (toLowerCase (s2l "happy"))) e := by
    refine ⟨Emotion.happy, by decide, ?_⟩
    norm_num +decide [scoreOf, lexScore, punctScore, matchedIn,
      emotionPatterns]
  exact ⟨h, C5_winner_tie_break (s2l "happy") h⟩

/-- The scenario utterance of the frustrated-classification claim. -/
def c2Utterance : Str := s2l "This is so frustrating, nothing works!"

/-- Helper evaluation: on the scenario utterance no frustrated lexicon
entry matches ("frustrated" is not a substring of "frustrating", and
"nothing works" matches neither "not working" nor "doesnt work"), so the
only nonzero scores are the `!`-bonuses `0.5` for excited and angry; the
stable selection picks angry, with confidence `0.5 / 10 = 1/20`. -/
theorem detectEmotion_c2 :
    detectEmotion c2Utterance =
      EmotionAnalysis.mk Emotion.angry (1/20) [] := by
  norm_num +decide [c2Utterance, detectEmotion, entriesOf, emotionListing,
    emotionOrder, scoreOf, lexScore, punctScore, matchesOf, matchedIn,
    emotionPatterns, firstMaxAux]

/-- C2 counterexample: on `"This is so frustrating, nothing works!"` the
classifier does not return `frustrated`. -/
theorem C2_counterexample :
    (detectEmotion c2Utterance).emotion ≠ Emotion.frustrated := by
  rw [detectEmotion_c2]
  decide

/-- C2 amended: on `"This is so frustrating, nothing works!"` the
classifier returns `angry` (no frustrated lexicon entry occurs in the
text; the `!` rule gives excited and angry `0.5` each and angry is listed
first) with confidence `1/20 > 0`. -/
theorem C2_amended :
    (detectEmotion c2Utterance).emotion = Emotion.angry ∧
    0 < (detectEmotion c2Utterance).confidence ∧
    (detectEmotion c2Utterance).confidence = 1/20 := by
  rw [detectEmotion_c2]
  refine ⟨rfl, by norm_num, rfl⟩

/-- C1: if the FAQ at index `i` has a keyword whose trimmed form is a
non-empty substring of the lowercased utterance, then `findFaq` returns
score exactly `1` together with that FAQ or an earlier-indexed FAQ that
also satisfies the exact-phase condition (a non-empty trimmed keyword
occurring in the utterance, or the lowercased question occurring in the
utterance). -/
theorem C1_exact_keyword_match (utt : Str) (faqs : List LocalFAQ)
    (i : Nat) (hi : i < faqs.length) (k : Str)
    (hk : k ∈ splitOnComma (toLowerCase
      ((faqs.get ⟨i, hi⟩).keywords.getD [])))
    (hne : trim k ≠ [])
    (hsub : trim k <:+: toLowerCase utt) :
    ∃ j, ∃ hj : j < faqs.length, j ≤ i ∧
      findFaq utt faqs = (some (faqs.get ⟨j, hj⟩), 1) ∧
      ((∃ k2 ∈ splitOnComma (toLowerCase
          ((faqs.get ⟨j, hj⟩).keywords.getD [])),
          trim k2 ≠ [] ∧ trim k2 <:+: toLowerCase utt) ∨
        toLowerCase ((faqs.get ⟨j, hj⟩).question.getD []) <:+:
          toLowerCase utt) := by
  have hcond : exactCondition (toLowerCase utt) (faqs.get ⟨i, hi⟩) = true := by
    simp only [exactCondition]
    rw [Bool.or_eq_true]
    apply Or.inl
    rw [List.any_eq_true]
    refine ⟨trim k, List.mem_map_of_mem trim hk, ?_⟩
    rw [Bool.and_eq_true]
    constructor
    · simp [List.isEmpty_iff, hne]
    · exact decide_eq_true hsub
  obtain ⟨j, hj, hji, hfind, hpj, _⟩ :=
    findFirst_spec (exactCondition (toLowerCase utt)) faqs i hi hcond
  refine ⟨j, hj, hji, ?_, ?_⟩
  · simp only [findFaq]
    rw [hfind]
  · simp only [exactCondition] at hpj
    rw [Bool.or_eq_true] at hpj
    rcases hpj with hany | hq
    · rw [List.any_eq_true] at hany
      obtain ⟨k', hk'mem, hk'p⟩ := hany
      rw [List.mem_map] at hk'mem
      obtain ⟨k2, hk2mem, hk2eq⟩ := hk'mem
      rw [Bool.and_eq_true] at hk'p
      obtain ⟨hk'ne, hk'inc⟩ := hk'p
      subst hk2eq
      refine Or.inl ⟨k2, hk2mem, ?_, of_decide_eq_true hk'inc⟩
      intro hcontra
      rw [hcontra] at hk'ne
      simp at hk'ne
    · rw [Bool.and_eq_true] at hq
      exact Or.inr (of_decide_eq_true hq.2)

/-- Scenario FAQ used in the exact-phase witnesses. -/
def c1Faq : LocalFAQ :=
  { question := some (s2l "What are the ticket prices?"),
    answer := some (s2l "Tickets cost $12 for adults."),
    keywords := some (s2l "ticket price,price,payment") }

/-- Witness for C1: the keyword `"price"` of the single-FAQ catalog occurs
in `"what are the ticket prices?"`. -/
theorem C1_witness :
    (s2l "price" ∈ splitOnComma (toLowerCase
      (([c1Faq].get ⟨0, by decide⟩).keywords.getD []))) ∧
    trim (s2l "price") ≠ [] ∧
    trim (s2l "price") <:+:
      toLowerCase (s2l "What are the ticket prices?") ∧
    (∃ j, ∃ hj : j < [c1Faq].length, j ≤ 0 ∧
      findFaq (s2l "What are the ticket prices?") [c1Faq] =
        (some ([c1Faq].get ⟨j, hj⟩), 1) ∧
      ((∃ k2 ∈ splitOnComma (toLowerCase
          (([c1Faq].get ⟨j, hj⟩).keywords.getD [])),
          trim k2 ≠ [] ∧ trim k2 <:+:
            toLowerCase (s2l "What are the ticket prices?")) ∨
        toLowerCase (([c1Faq].get ⟨j, hj⟩).question.getD []) <:+:
          toLowerCase (s2l "What are the ticket prices?"))) := by
  refine ⟨by decide, by decide, by decide, ?_⟩
  exact C1_exact_keyword_match (s2l "What are the ticket prices?") [c1Faq]
    0 (by decide) (s2l "price") (by decide) (by decide) (by decide)

theorem bestFold_spec {α : Type} (score : α → ℚ) (l : List α) :
    (0 ≤ (bestFold score l).2 ∧
      ∀ f ∈ l, score f ≤ (bestFold score l).2) ∧
    ((bestFold score l) = (none, 0) ∨
      ∃ i, ∃ hi : i < l.length,
        (bestFold score l).1 = some (l.get ⟨i, hi⟩) ∧
        (bestFold score l).2 = score (l.get ⟨i, hi⟩) ∧
        0 < score (l.get ⟨i, hi⟩) ∧
        ∀ j, ∀ hj : j < l.length, j < i →
          score (l.get ⟨j, hj⟩) < score (l.get ⟨i, hi⟩)) :=
  bestFold_go score l (none, 0)

/-- C3: when the exact phase finds nothing, the fuzzy fold's score bounds
every FAQ's combined score, the selected FAQ is the first-seen one
attaining the strictly highest score, a best score of at least `0.35`
guarantees a selected FAQ, and `findAnswer` returns the selection's answer
exactly when the best score reaches `0.35` (`null` otherwise). -/
theorem C3_fuzzy_phase (utt : Str) (faqs : List FAQ)
    (hex : ∀ f ∈ faqs, exactConditionC (toLowerCase utt) f = false) :
    (∀ f ∈ faqs, fuzzyScoreC (toLowerCase utt) f ≤
      (bestFold (fuzzyScoreC (toLowerCase utt)) faqs).2) ∧
    (∀ f, (bestFold (fuzzyScoreC (toLowerCase utt)) faqs).1 = some f →
      fuzzyScoreC (toLowerCase utt) f =
        (bestFold (fuzzyScoreC (toLowerCase utt)) faqs).2 ∧
      ∃ i, ∃ hi : i < faqs.length, faqs.get ⟨i, hi⟩ = f ∧
        ∀ j, ∀ hj : j < faqs.length, j < i →
          fuzzyScoreC (toLowerCase utt) (faqs.get ⟨j, hj⟩) <
            fuzzyScoreC (toLowerCase utt) f) ∧
    ((0.35 : ℚ) ≤ (bestFold (fuzzyScoreC (toLowerCase utt)) faqs).2 →
      ∃ f, (bestFold (fuzzyScoreC (toLowerCase utt)) faqs).1 = some f) ∧
    findAnswer utt faqs =
      (match (bestFold (fuzzyScoreC (toLowerCase utt)) faqs).1 with
       | some f =>
           if (bestFold (fuzzyScoreC (toLowerCase utt)) faqs).2 ≥ 0.35
           then some f.answer else none
       | none => none) := by
  obtain ⟨⟨hnn, hall⟩, hcase⟩ := bestFold_spec (fuzzyScoreC (toLowerCase utt)) faqs
  refine ⟨hall, ?_, ?_, ?_⟩
  · intro f hf
    rcases hcase with heq | ⟨i, hi, h1, h2, h3, h4⟩
    · rw [heq] at hf
      exact absurd hf (Option.noConfusion)
    · rw [h1] at hf
      have hfi : faqs.get ⟨i, hi⟩ = f := Option.some.inj hf
      refine ⟨?_, i, hi, hfi, ?_⟩
      · rw [← hfi, ← h2]
      · intro j hj hji
        rw [← hfi]
        exact h4 j hj hji
  · intro hge
    rcases hcase with heq | ⟨i, hi, h1, _, _, _⟩
    · rw [heq] at hge
      norm_num at hge
    · exact ⟨faqs.get ⟨i, hi⟩, h1⟩
  · simp only [findAnswer]
    rw [findFirst_eq_none _ _ hex]

/-- Scenario FAQ used in the fuzzy-phase witness. -/
def c3Faq : FAQ :=
  { id := s2l "1",
    question := s2l "What are the ticket prices?",
    answer := s2l "Tickets cost $12 for adults.",
    category := s2l "Tickets",
    keywords := s2l "ticket price,price,payment",
    created_at := s2l "" }

/-- Witness for C3: on a gibberish utterance the exact phase fails for the
one-FAQ catalog, so the fuzzy-phase characterization applies. -/
theorem C3_witness :
    (∀ f ∈ [c3Faq], exactConditionC
      (toLowerCase (s2l "asdkjasdkj random gibberish")) f = false) ∧
    ((∀ f ∈ [c3Faq],
      fuzzyScoreC (toLowerCase (s2l "asdkjasdkj random gibberish")) f ≤
      (bestFold (fuzzyScoreC
        (toLowerCase (s2l "asdkjasdkj random gibberish"))) [c3Faq]).2) ∧
    (∀ f, (bestFold (fuzzyScoreC
        (toLowerCase (s2l "asdkjasdkj random gibberish"))) [c3Faq]).1 =
          some f →
      fuzzyScoreC (toLowerCase (s2l "asdkjasdkj random gibberish")) f =
        (bestFold (fuzzyScoreC
          (toLowerCase (s2l "asdkjasdkj random gibberish"))) [c3Faq]).2 ∧
      ∃ i, ∃ hi : i < [c3Faq].length, [c3Faq].get ⟨i, hi⟩ = f ∧
        ∀ j, ∀ hj : j < [c3Faq].length, j < i →
          fuzzyScoreC (toLowerCase (s2l "asdkjasdkj random gibberish"))
              ([c3Faq].get ⟨j, hj⟩) <
            fuzzyScoreC (toLowerCase (s2l "asdkjasdkj random gibberish"))
              f) ∧
    ((0.35 : ℚ) ≤ (bestFold (fuzzyScoreC
        (toLowerCase (s2l "asdkjasdkj random gibberish"))) [c3Faq]).2 →
      ∃ f, (bestFold (fuzzyScoreC
        (toLowerCase (s2l "asdkjasdkj random gibberish"))) [c3Faq]).1 =
          some f) ∧
    findAnswer (s2l "asdkjasdkj random gibberish") [c3Faq] =
      (match (bestFold (fuzzyScoreC
          (toLowerCase (s2l "asdkjasdkj random gibberish"))) [c3Faq]).1 with
       | some f =>
           if (bestFold (fuzzyScoreC
              (toLowerCase (s2l "asdkjasdkj random gibberish")))
                [c3Faq]).2 ≥ 0.35
           then some f.answer else none
       | none => none)) :=
  ⟨by decide, C3_fuzzy_phase (s2l "asdkjasdkj random gibberish") [c3Faq]
    (by decide)⟩

/-- C9: on the empty catalog every utterance yields no match at either
phase (score `0`, and totally — the model functions never fail), the
composer takes the no-answer branch, and the suggested-topics block
contains zero bullet lines. -/
theorem C9_empty_catalog (utt : Str) (p q : Fin 3) :
    findFirst (exactCondition (toLowerCase utt)) ([] : List LocalFAQ) =
      none ∧
    bestFold (fuzzyScore (toLowerCase utt)) ([] : List LocalFAQ) =
      (none, 0) ∧
    findFaq utt [] = (none, 0) ∧
    (analyzeAndRespond utt [] p q).baseAnswer = none ∧
    (analyzeAndRespond utt [] p q).reply =
      generateNoAnswerResponse (detectEmotion utt).emotion
        (suggestedTopicsFor []) ∧
    countBulletLines (suggestedTopicsFor []) = 0 :=
  ⟨rfl, rfl, rfl, rfl, rfl, by decide⟩

/-- Helper: each acknowledgment/transition pool has three entries. -/
theorem empatheticPrefixes_length (e : Emotion) :
    (empatheticPrefixes e).length = 3 := by
  cases e <;> rfl

/-- Helper: each supportive-closing pool has three entries. -/
theorem supportiveSuffixes_length (e : Emotion) :
    (supportiveSuffixes e).length = 3 := by
  cases e <;> rfl

/-- C7: the empathetic wrap returns the answer unmodified exactly when the
confidence is below `0.3` or the emotion is neutral; otherwise, for every
pool selection, it assembles an acknowledgment/transition pair from the
emotion's prefix pool, the answer, and a closing from the emotion's suffix
pool, separated by blank lines — so the answer always occurs verbatim
inside the reply. -/
theorem C7_empathetic_wrap (base : Str) (e : Emotion) (conf : ℚ)
    (p q : Fin 3) :
    (generateEmpatheticResponse base e conf p q = base ↔
      (conf < 0.3 ∨ e = Emotion.neutral)) ∧
    (¬(conf < 0.3 ∨ e = Emotion.neutral) →
      ∃ pre ∈ empatheticPrefixes e, ∃ suf ∈ supportiveSuffixes e,
        generateEmpatheticResponse base e conf p q =
          pre.acknowledgment ++ s2l " " ++ pre.transition ++ s2l "\n\n" ++
            base ++ s2l "\n\n" ++ suf) ∧
    base <:+: generateEmpatheticResponse base e conf p q := by
  by_cases h : conf < 0.3 ∨ e = Emotion.neutral
  · have hval : generateEmpatheticResponse base e conf p q = base := by
      simp only [generateEmpatheticResponse]
      rw [if_pos h]
    refine ⟨iff_of_true hval h, fun hc => absurd h hc, ?_⟩
    rw [hval]
  · have hval : generateEmpatheticResponse base e conf p q =
        ((empatheticPrefixes e).getD p.val
            (EmpatheticPrefix.mk [] [])).acknowledgment ++ s2l " " ++
          ((empatheticPrefixes e).getD p.val
            (EmpatheticPrefix.mk [] [])).transition ++ s2l "\n\n" ++
          base ++ s2l "\n\n" ++
          (supportiveSuffixes e).getD q.val [] := by
      simp only [generateEmpatheticResponse]
      rw [if_neg h]
    have hplen : p.val < (empatheticPrefixes e).length := by
      rw [empatheticPrefixes_length]
      exact p.isLt
    have hqlen : q.val < (supportiveSuffixes e).length := by
      rw [supportiveSuffixes_length]
      exact q.isLt
    have hpmem : (empatheticPrefixes e).getD p.val
        (EmpatheticPrefix.mk [] []) ∈ empatheticPrefixes e := by
      rw [List.getD_eq_getElem _ _ hplen]
      exact List.getElem_mem hplen
    have hqmem : (supportiveSuffixes e).getD q.val [] ∈
        supportiveSuffixes e := by
      rw [List.getD_eq_getElem _ _ hqlen]
      exact List.getElem_mem hqlen
    have hinf : base <:+: generateEmpatheticResponse base e conf p q := by
      rw [hval]
      refine ⟨((empatheticPrefixes e).getD p.val
          (EmpatheticPrefix.mk [] [])).acknowledgment ++ s2l " " ++
        ((empatheticPrefixes e).getD p.val
          (EmpatheticPrefix.mk [] [])).transition ++ s2l "\n\n",
        s2l "\n\n" ++ (supportiveSuffixes e).getD q.val [], ?_⟩
      simp [List.append_assoc]
    refine ⟨?_, fun _ => ⟨_, hpmem, _, hqmem, hval⟩, hinf⟩
    refine iff_of_false ?_ h
    intro heq
    have hlen := congrArg List.length heq
    rw [hval] at hlen
    simp only [List.length_append] at hlen
    have h1 : (s2l " ").length = 1 := rfl
    have h2 : (s2l "\n\n").length = 2 := rfl
    rw [h1, h2] at hlen
    omega

/-- Witness for C7: with confidence `1` and emotion `happy` the wrap is
the full three-part assembly around the answer. -/
theorem C7_witness :
    ∃ pre ∈ empatheticPrefixes Emotion.happy,
      ∃ suf ∈ supportiveSuffixes Emotion.happy,
        generateEmpatheticResponse (s2l "hi") Emotion.happy 1 0 0 =
          pre.acknowledgment ++ s2l " " ++ pre.transition ++ s2l "\n\n" ++
            s2l "hi" ++ s2l "\n\n" ++ suf := by
  refine (C7_empathetic_wrap (s2l "hi") Emotion.happy 1 0 0).2.1 ?_
  push_neg
  exact ⟨by norm_num, by decide⟩

/-- Utterance used in the override scenarios: detected emotion `happy`
with confidence `1/2`. -/
def c8Utterance : Str := s2l "thank you"

/-- Helper evaluation: `"thank you"` matches the happy keyword `"thank"`
(+2) and the happy phrase `"thank you"` (+3), nothing else. -/
theorem detectEmotion_c8 :
    detectEmotion c8Utterance =
      EmotionAnalysis.mk Emotion.happy (1/2)
        [s2l "thank", s2l "thank you"] := by
  norm_num +decide [c8Utterance, detectEmotion, entriesOf, emotionListing,
    emotionOrder, scoreOf, lexScore, punctScore, matchesOf, matchedIn,
    emotionPatterns, firstMaxAux]

/-- FAQ whose `emotion_answers` entry for `happy` is the empty string. -/
def c8Faq : LocalFAQ :=
  { question := some (s2l "How can I thank the staff?"),
    answer := some (s2l "You can leave a review."),
    keywords := some (s2l "thank"),
    emotion_answers := some [(Emotion.happy, [])] }

/-- Helper evaluation: the composer on the empty-string override wraps the
selected base (the empty override) empathetically instead of returning the
override. -/
theorem analyzeAndRespond_c8 :
    analyzeAndRespond c8Utterance [c8Faq] 0 0 =
      AnalysisResult.mk c8Utterance Emotion.happy (1/2)
        [s2l "thank", s2l "thank you"] (some [])
        (generateEmpatheticResponse [] Emotion.happy (1/2) 0 0) := by
  have hm : findFaq c8Utterance [c8Faq] = (some c8Faq, 1) := rfl
  have hov2 : c8Faq.emotion_answers.bind
      (fun ea => lookupEA ea Emotion.happy) = some [] := by decide
  simp only [analyzeAndRespond, hm, detectEmotion_c8, hov2]
  rw [if_pos (show ((1:ℚ) ≥ 0.35) by norm_num)]
  rw [if_neg (show ¬(jsTruthyStr (some []) = true) by decide)]
  rfl

/-- C8 counterexample: for the utterance `"thank you"` (detected emotion
`happy`) and a catalog whose matched FAQ maps `happy` to the empty-string
override, the match is usable (exact score `1`), the `emotion_answers`
entry for the detected emotion exists, and `baseAnswer` equals that
override — but the reply is not the override verbatim (the falsy empty
string sends the code into the empathetic wrap instead). -/
theorem C8_counterexample :
    findFaq c8Utterance [c8Faq] = (some c8Faq, 1) ∧
    c8Faq.emotion_answers.bind
      (fun ea => lookupEA ea (detectEmotion c8Utterance).emotion) =
        some [] ∧
    (analyzeAndRespond c8Utterance [c8Faq] 0 0).baseAnswer = some [] ∧
    (analyzeAndRespond c8Utterance [c8Faq] 0 0).reply ≠ [] := by
  have hov : c8Faq.emotion_answers.bind
      (fun ea => lookupEA ea (detectEmotion c8Utterance).emotion) =
        some [] := by
    rw [detectEmotion_c8]
    decide
  refine ⟨rfl, hov, ?_, ?_⟩
  · rw [analyzeAndRespond_c8]
  · rw [analyzeAndRespond_c8]
    show generateEmpatheticResponse [] Emotion.happy (1/2) 0 0 ≠ []
    simp only [generateEmpatheticResponse]
    rw [if_neg]
    · decide
    · push_neg
      exact ⟨by norm_num, by decide⟩

/-- C8 amended: whenever the matcher returns a usable FAQ (score at least
`0.35`; the exact phase's score `1` qualifies) and that FAQ's
`emotion_answers` entry for the detected emotion is a non-empty string,
both `baseAnswer` and `reply` equal that override verbatim, with no
empathetic wrapping. -/
theorem C8_emotion_override (utt : Str) (faqs : List LocalFAQ)
    (p q : Fin 3) (f : LocalFAQ) (s : ℚ) (ov : Str)
    (hm : findFaq utt faqs = (some f, s)) (hs : (0.35 : ℚ) ≤ s)
    (hov : f.emotion_answers.bind
      (fun ea => lookupEA ea (detectEmotion utt).emotion) = some ov)
    (hne : ov ≠ []) :
    (analyzeAndRespond utt faqs p q).baseAnswer = some ov ∧
    (analyzeAndRespond utt faqs p q).reply = ov := by
  have htr : jsTruthyStr (some ov) = true := by
    simp [jsTruthyStr, List.isEmpty_iff, hne]
  simp only [analyzeAndRespond, hm, hov]
  rw [if_pos (show ((some f, s).2 ≥ 0.35) from hs)]
  rw [if_pos htr]
  exact ⟨rfl, rfl⟩

/-- FAQ whose `emotion_answers` entry for `happy` is the non-empty
override `"HB"`. -/
def c8FaqB : LocalFAQ :=
  { question := some (s2l "How can I thank the staff?"),
    answer := some (s2l "You can leave a review."),
    keywords := some (s2l "thank"),
    emotion_answers := some [(Emotion.happy, s2l "HB")] }

/-- Witness for the amended C8: with the non-empty override `"HB"` both
`baseAnswer` and `reply` are that override verbatim. -/
theorem C8_witness :
    findFaq c8Utterance [c8FaqB] = (some c8FaqB, 1) ∧
    (0.35 : ℚ) ≤ 1 ∧
    c8FaqB.emotion_answers.bind
      (fun ea => lookupEA ea (detectEmotion c8Utterance).emotion) =
        some (s2l "HB") ∧
    s2l "HB" ≠ [] ∧
    (analyzeAndRespond c8Utterance [c8FaqB] 0 0).baseAnswer =
      some (s2l "HB") ∧
    (analyzeAndRespond c8Utterance [c8FaqB] 0 0).reply = s2l "HB" := by
  have hov : c8FaqB.emotion_answers.bind
      (fun ea => lookupEA ea (detectEmotion c8Utterance).emotion) =
        some (s2l "HB") := by
    rw [detectEmotion_c8]
    decide
  have hc := C8_emotion_override c8Utterance [c8FaqB] 0 0 c8FaqB 1
    (s2l "HB") rfl (by norm_num) hov (by decide)
  exact ⟨rfl, by norm_num, hov, by decide, hc.1, hc.2⟩

/-- Modelled from the claim's words (C10): the first catalog entry that
either has a non-empty keyword occurring in the lowercased utterance or
has an empty question.  This is the claim's characterization of which
entry `findAnswer` returns; it is compared against `findAnswer` itself. -/
def claimedFirstEntryC10 (utt : Str) : List FAQ → Option FAQ
  | [] => none
  | f :: rest =>
      if ((splitOnComma (toLowerCase f.keywords)).map trim).any
          (fun k => !k.isEmpty && jsIncludes (toLowerCase utt) k) ||
          f.question.isEmpty
      then some f else claimedFirstEntryC10 utt rest

/-- First counterexample FAQ: non-empty question `"book"`, no keywords. -/
def c10Faq1 : FAQ :=
  { id := s2l "1", question := s2l "book", answer := s2l "A1",
    category := s2l "", keywords := s2l "", created_at := s2l "" }

/-- Second counterexample FAQ: empty question, no keywords. -/
def c10Faq2 : FAQ :=
  { id := s2l "2", question := s2l "", answer := s2l "A2",
    category := s2l "", keywords := s2l "", created_at := s2l "" }

/-- C10 counterexample: on `"book tickets"` the first catalog entry with a
non-empty matching keyword or an empty question is the second one (answer
`"A2"`), but `findAnswer` returns `"A1"`: the first entry's non-empty
question `"book"` is a substring of the utterance, a case the claim's
characterization omits. -/
theorem C10_counterexample :
    (∃ f ∈ [c10Faq1, c10Faq2], f.question = []) ∧
    (claimedFirstEntryC10 (s2l "book tickets") [c10Faq1, c10Faq2]).map
      FAQ.answer = some (s2l "A2") ∧
    findAnswer (s2l "book tickets") [c10Faq1, c10Faq2] =
      some (s2l "A1") ∧
    s2l "A1" ≠ s2l "A2" := by
  refine ⟨⟨c10Faq2, by decide, by decide⟩, by decide, by decide, by decide⟩

/-- C10 amended: if some catalog entry has an empty question, `findAnswer`
returns non-null from the exact phase — the answer of the first entry
satisfying the exact-phase condition (a non-empty keyword occurring in the
lowercased utterance, or the lowercased question — in particular an empty
one — occurring in the lowercased utterance); the fuzzy phase is never
reached and no-match is never returned. -/
theorem C10_empty_question (utt : Str) (faqs : List FAQ)
    (h : ∃ i, ∃ hi : i < faqs.length, (faqs.get ⟨i, hi⟩).question = []) :
    ∃ j, ∃ hj : j < faqs.length,
      findAnswer utt faqs = some ((faqs.get ⟨j, hj⟩).answer) ∧
      exactConditionC (toLowerCase utt) (faqs.get ⟨j, hj⟩) = true ∧
      ∀ m, ∀ hm : m < faqs.length, m < j →
        exactConditionC (toLowerCase utt) (faqs.get ⟨m, hm⟩) = false := by
  obtain ⟨i, hi, hq⟩ := h
  have hnil : ([] : Str) <:+: toLowerCase utt :=
    ⟨[], toLowerCase utt, by simp⟩
  have hcond : exactConditionC (toLowerCase utt) (faqs.get ⟨i, hi⟩) =
      true := by
    simp only [exactConditionC]
    rw [Bool.or_eq_true]
    right
    rw [hq]
    exact decide_eq_true hnil
  obtain ⟨j, hj, hji, hfind, hpj, hbefore⟩ :=
    findFirst_spec (exactConditionC (toLowerCase utt)) faqs i hi hcond
  refine ⟨j, hj, ?_, hpj, hbefore⟩
  simp only [findAnswer]
  rw [hfind]

/-- Witness for the amended C10: a one-entry catalog whose question is
empty matches any utterance in the exact phase. -/
theorem C10_witness :
    (∃ i, ∃ hi : i < [c10Faq2].length,
      ([c10Faq2].get ⟨i, hi⟩).question = []) ∧
    (∃ j, ∃ hj : j < [c10Faq2].length,
      findAnswer (s2l "zzz") [c10Faq2] =
        some (([c10Faq2].get ⟨j, hj⟩).answer) ∧
      exactConditionC (toLowerCase (s2l "zzz"))
        ([c10Faq2].get ⟨j, hj⟩) = true ∧
      ∀ m, ∀ hm : m < [c10Faq2].length, m < j →
        exactConditionC (toLowerCase (s2l "zzz"))
          ([c10Faq2].get ⟨m, hm⟩) = false) :=
  ⟨⟨0, by decide, by decide⟩,
    C10_empty_question (s2l "zzz") [c10Faq2] ⟨0, by decide, by decide⟩⟩
